import Mathlib

/-!
Verification development for the RSS service's cache-coherent feed
generation and invalidation subsystem.

The definitions below are a shallow embedding of the TypeScript source:
`src/cache.ts` (cache manager), `src/storage.ts` / the storage half of
`src/index.ts` (item store and persisted feed record), `src/config.ts`
(feed configuration), and the route handlers (`handleAddItem`,
`handleUpdateConfig`).

Modelling conventions:
- JavaScript `Date.now()` / `new Date()` are modelled by an explicit
  timestamp parameter `t : Nat` (milliseconds since the Unix epoch).
- `uuidv4()` results are explicit string parameters (`genId`, `genGuid`).
- The Redis string keyspace is a function `String → Option String`;
  `redis.expire` only sets a TTL, and the claims under study all exclude
  TTL expiry, so expiry is modelled as not elapsing (the call does not
  change the stored values).
- Fallible Redis reads are modelled by a behaviour `String → RResult`
  where `RResult.thrown` models the promise rejecting.
- JS truthiness of a possibly-absent string field (`undefined`, `null`,
  `""` are falsy) is modelled on `Option String`.
-/

/-- JS truthiness for an optional string: `none` (undefined/null) and the
empty string are falsy. -/
def truthyS : Option String → Bool
  | none => false
  | some s => !(s == "")

/-- First-truthy-wins defaulting, modelling the JS `a || b` idiom on
string-valued fields. -/
def orTruthy (o : Option String) (d : String) : String :=
  match o with
  | none => d
  | some s => if s == "" then d else s

/-- Decimal digit character of `n < 10`. -/
def digCh (n : Nat) : Char := Char.ofNat (48 + n)

/-- Decimal digits of `n`, most significant first; `fuel`-structured so it
reduces in the kernel (`fuel = n + 1` always suffices). -/
def natChars : Nat → Nat → List Char
  | 0, _ => []
  | fuel + 1, n => if n < 10 then [digCh n] else natChars fuel (n / 10) ++ [digCh (n % 10)]

/-- Decimal rendering of `n`, left-padded with zeros to width `w`. -/
def padNum (w n : Nat) : List Char :=
  let ds := natChars (n + 1) n
  List.replicate (w - ds.length) '0' ++ ds

/-- Base-36 digit character, as produced by JS `Number.prototype.toString(36)`. -/
def c36 (n : Nat) : Char :=
  if n < 10 then Char.ofNat (48 + n) else Char.ofNat (97 + (n - 10))

/-- Base-36 digits of `n`, most significant first (`fuel = n + 1` suffices). -/
def b36go : Nat → Nat → List Char
  | 0, _ => []
  | fuel + 1, n => if n < 36 then [c36 n] else b36go fuel (n / 36) ++ [c36 (n % 36)]

/-- The etag the cache manager computes at timestamp `t`:
`` `"${t.toString(36)}"` `` (a quoted base-36 rendering of the timestamp). -/
def quoteB36 (t : Nat) : String :=
  String.mk ('"' :: (b36go (t + 1) t ++ ['"']))

/-- Value of a base-36 digit character (inverse of `c36` on digits). -/
def v36c (c : Char) : Nat :=
  if 97 ≤ c.toNat then c.toNat - 87 else c.toNat - 48

/-- Numeric value of a base-36 digit string. -/
def v36 (l : List Char) : Nat :=
  l.foldl (fun a c => a * 36 + v36c c) 0

/-- Gregorian leap-year test. -/
def isLeapB (y : Nat) : Bool :=
  (y % 4 == 0 && !(y % 100 == 0)) || y % 400 == 0

/-- Length in days of month `m` (1-based) of year `y`. -/
def monthLen (y m : Nat) : Nat :=
  if m == 2 then (if isLeapB y then 29 else 28)
  else if m == 4 || m == 6 || m == 9 || m == 11 then 30
  else 31

/-- Days in the months of year `y` strictly before month `m` (1-based). -/
def monthPfxDays (y m : Nat) : Nat :=
  let base :=
    match m with
    | 1 => 0 | 2 => 31 | 3 => 59 | 4 => 90 | 5 => 120 | 6 => 151
    | 7 => 181 | 8 => 212 | 9 => 243 | 10 => 273 | 11 => 304 | _ => 334
  base + (if 2 < m ∧ isLeapB y then 1 else 0)

/-- Leap days up to and including year `n` (Gregorian count of multiples). -/
def leapCount (n : Nat) : Nat := n / 4 - n / 100 + n / 400

/-- Days from 1970-01-01 to year `y`, month `mo`, day `d` (for `y ≥ 1970`;
the model only covers epoch-era dates, which is all the service handles). -/
def daysFromEpoch (y mo d : Nat) : Nat :=
  365 * (y - 1970) + (leapCount (y - 1) - leapCount 1969) + monthPfxDays y mo + (d - 1)

/-- Epoch milliseconds of a civil UTC datetime. -/
def msOfDate (y mo d h mi s ms : Nat) : Nat :=
  daysFromEpoch y mo d * 86400000 + h * 3600000 + mi * 60000 + s * 1000 + ms

/-- Read exactly `n` decimal digits, accumulating their value. -/
def readDigits : Nat → Nat → List Char → Option (Nat × List Char)
  | 0, acc, cs => some (acc, cs)
  | _ + 1, _, [] => none
  | n + 1, acc, c :: cs =>
    if c.isDigit then readDigits n (acc * 10 + (c.toNat - 48)) cs else none

/-- Consume one expected character. -/
def expectCh : Char → List Char → Option (List Char)
  | _, [] => none
  | e, c :: cs => if c = e then some cs else none

/-- Parse the trailing time-of-day part `HH:MM:SS[.mmm]Z` of an ISO-8601
datetime, returning milliseconds within the day. -/
def parseTimePart (cs : List Char) : Option Nat := do
  let (h, r1) ← readDigits 2 0 cs
  let r2 ← expectCh ':' r1
  let (mi, r3) ← readDigits 2 0 r2
  let r4 ← expectCh ':' r3
  let (s, r5) ← readDigits 2 0 r4
  let (ms, r6) ←
    match r5 with
    | '.' :: r => readDigits 3 0 r
    | r => some (0, r)
  if h ≤ 23 ∧ mi ≤ 59 ∧ s ≤ 59 ∧ r6 = ['Z'] then
    some (h * 3600000 + mi * 60000 + s * 1000 + ms)
  else none

/-- Model of JS `new Date(string).getTime()` on the ISO-8601 interchange
forms this service produces and consumes (`YYYY-MM-DD` and
`YYYY-MM-DDTHH:MM:SS[.mmm]Z`): `none` models an Invalid Date (`NaN`). -/
def parseDate (str : String) : Option Nat := do
  let cs := str.data
  let (y, r1) ← readDigits 4 0 cs
  let r2 ← expectCh '-' r1
  let (mo, r3) ← readDigits 2 0 r2
  let r4 ← expectCh '-' r3
  let (d, r5) ← readDigits 2 0 r4
  if 1 ≤ mo ∧ mo ≤ 12 ∧ 1 ≤ d ∧ d ≤ monthLen y mo then
    match r5 with
    | [] => some (msOfDate y mo d 0 0 0 0)
    | 'T' :: r6 => do
      let ms ← parseTimePart r6
      some (daysFromEpoch y mo d * 86400000 + ms)
    | _ => none
  else none

/-- Year length in days. -/
def yLen (y : Nat) : Nat := if isLeapB y then 366 else 365

/-- Locate the year containing epoch day `d`, returning the year and the
day-of-year remainder (`fuel`-structured; `fuel = d / 365 + 1` suffices). -/
def findYear : Nat → Nat → Nat → Nat × Nat
  | 0, y, d => (y, d)
  | fuel + 1, y, d => if d < yLen y then (y, d) else findYear fuel (y + 1) (d - yLen y)

/-- Locate the month containing day-of-year `d` of year `y` (1-based),
returning the month and day-of-month remainder. -/
def findMonth : Nat → Nat → Nat → Nat → Nat × Nat
  | 0, _, m, d => (m, d)
  | fuel + 1, y, m, d =>
    if d < monthLen y m then (m, d) else findMonth fuel y (m + 1) (d - monthLen y m)

/-- Model of `new Date(t).toISOString()`: `YYYY-MM-DDTHH:MM:SS.mmmZ`. -/
def isoString (t : Nat) : String :=
  let days := t / 86400000
  let rem := t % 86400000
  let yd := findYear (days / 365 + 1) 1970 days
  let md := findMonth 12 yd.1 1 yd.2
  String.mk
    (padNum 4 yd.1 ++ '-' :: padNum 2 md.1 ++ '-' :: padNum 2 (md.2 + 1) ++
      'T' :: padNum 2 (rem / 3600000) ++ ':' :: padNum 2 (rem % 3600000 / 60000) ++
      ':' :: padNum 2 (rem % 60000 / 1000) ++ '.' :: padNum 3 (rem % 1000) ++ ['Z'])

/-- Freshness metadata stored alongside each cached rendering
(`CacheMetadata` in `src/cache.ts`). -/
structure CacheMetadata where
  lastModified : String
  etag : String
deriving DecidableEq, Repr

/-- Opening brace character (written via its code point). -/
def lbrace : Char := Char.ofNat 123

/-- Closing brace character (written via its code point). -/
def rbrace : Char := Char.ofNat 125

/-- JSON string escaping as `JSON.stringify` performs it on the metadata
fields (quote and backslash get a backslash prefix). -/
def escJson : List Char → List Char
  | [] => []
  | c :: cs => if c = '"' ∨ c = '\\' then '\\' :: c :: escJson cs else c :: escJson cs

/-- Skeleton before the `lastModified` field value in the metadata JSON. -/
def mdSkel1 : List Char := lbrace :: "\"lastModified\":\"".data

/-- Skeleton between the two field values in the metadata JSON. -/
def mdSkel2 : List Char := ",\"etag\":\"".data

/-- Model of `JSON.stringify(metadata)` for the two-field metadata record
(fields in object-literal insertion order: `lastModified`, then `etag`). -/
def encodeMetadata (m : CacheMetadata) : String :=
  String.mk
    (mdSkel1 ++ (escJson m.lastModified.data ++ ('"' ::
      (mdSkel2 ++ (escJson m.etag.data ++ ['"', rbrace])))))

/-- Parse a JSON string body up to its closing quote, undoing the escapes
`escJson` produces; returns the decoded text and the remaining input. -/
def parseJStr : List Char → Option (List Char × List Char)
  | [] => none
  | '"' :: cs => some ([], cs)
  | '\\' :: [] => none
  | '\\' :: d :: ds => (parseJStr ds).map (fun p => (d :: p.1, p.2))
  | c :: cs => (parseJStr cs).map (fun p => (c :: p.1, p.2))

/-- Consume an expected character sequence. -/
def dropPfx : List Char → List Char → Option (List Char)
  | [], l => some l
  | _ :: _, [] => none
  | p :: ps, c :: cs => if c = p then dropPfx ps cs else none

/-- Model of `JSON.parse` on the metadata grammar; `none` models the parse
throwing (which the cache read catches). -/
def decodeMetadata (str : String) : Option CacheMetadata := do
  let r1 ← dropPfx mdSkel1 str.data
  let (lm, r2) ← parseJStr r1
  let r3 ← dropPfx mdSkel2 r2
  let (et, r4) ← parseJStr r3
  match r4 with
  | [c] => if c = rbrace then some ⟨String.mk lm, String.mk et⟩ else none
  | _ => none

/-- The four feed formats (`FeedFormat` in `src/types.ts`). -/
inductive FeedFormat where
  | rss | atom | json | raw
deriving DecidableEq, Repr

/-- String form of a format, as used in cache key construction. -/
def fmtName : FeedFormat → String
  | .rss => "rss"
  | .atom => "atom"
  | .json => "json"
  | .raw => "raw"

/-- Content cache key: `CACHE_PREFIX + format` (`"feed:cache:"`). -/
def cacheKeyOf (f : FeedFormat) : String := "feed:cache:" ++ fmtName f

/-- Metadata cache key: `CACHE_METADATA_PREFIX + format`
(`"feed:cache:metadata:"`). -/
def metaKeyOf (f : FeedFormat) : String := "feed:cache:metadata:" ++ fmtName f

/-- The Redis string keyspace. -/
def Kv : Type := String → Option String

/-- Model of `redis.set`. -/
def kvSet (k v : String) (m : Kv) : Kv :=
  fun k' => if k' = k then some v else m k'

/-- Model of `redis.del`. -/
def kvDel (k : String) (m : Kv) : Kv :=
  fun k' => if k' = k then none else m k'

/-- Delete a list of keys in order. -/
def delKeys (m : Kv) (ks : List String) : Kv :=
  ks.foldl (fun acc k => kvDel k acc) m

/-- Result of a fallible `redis.get`: either a value (possibly absent) or
a thrown error. -/
inductive RResult where
  | thrown
  | val (v : Option String)
deriving DecidableEq, Repr

/-- A read behaviour of the backing store. -/
def RBeh : Type := String → RResult

/-- The fault-free read behaviour over a concrete keyspace. -/
def pureBeh (m : Kv) : RBeh := fun k => RResult.val (m k)

/-- Fallback metadata synthesized by `getCachedFeed` when content exists
without metadata: current-time `lastModified` and a fresh time-based etag. -/
def fallbackMeta (now : Nat) : CacheMetadata :=
  ⟨isoString now, quoteB36 now⟩

/-- Model of `getCachedFeed` (`src/cache.ts:20-55`): any thrown store error
or metadata-parse error is caught and yields `none`; a falsy (absent or
empty) content yields `none`; content with falsy metadata yields the
content with synthesized fallback metadata. -/
def getCachedFeed (g : RBeh) (format : FeedFormat) (now : Nat) :
    Option (String × CacheMetadata) :=
  match g (cacheKeyOf format) with
  | .thrown => none
  | .val none => none
  | .val (some content) =>
    if content = "" then none
    else
      match g (metaKeyOf format) with
      | .thrown => none
      | .val none => some (content, fallbackMeta now)
      | .val (some mstr) =>
        if mstr = "" then some (content, fallbackMeta now)
        else
          match decodeMetadata mstr with
          | some md => some (content, md)
          | none => none

/-- Model of `cacheFeed` (`src/cache.ts:60-90`) at timestamp `t`: computes
time-based metadata, stores content then metadata (the `expire` calls set
TTLs, which the claims under study exclude, so they leave the keyspace
unchanged), and returns the metadata together with the new keyspace. The
`ttl` argument is carried for signature fidelity. -/
def cacheFeed (m : Kv) (format : FeedFormat) (content : String) (_ttl t : Nat) :
    CacheMetadata × Kv :=
  let md : CacheMetadata := ⟨isoString t, quoteB36 t⟩
  let m1 := kvSet (cacheKeyOf format) content m
  let m2 := kvSet (metaKeyOf format) (encodeMetadata md) m1
  (md, m2)

/-- The eight keys `invalidateCache` deletes, in its loop order
(per format: content key then metadata key; formats rss, atom, json, raw). -/
def invalidationKeys : List String :=
  [cacheKeyOf .rss, metaKeyOf .rss, cacheKeyOf .atom, metaKeyOf .atom,
   cacheKeyOf .json, metaKeyOf .json, cacheKeyOf .raw, metaKeyOf .raw]

/-- Model of a fault-free `invalidateCache` (`src/cache.ts:95-112`). -/
def invalidateAll (m : Kv) : Kv := delKeys m invalidationKeys

/-- Parsed JSON body of an item-add request, with the fields the handler
inspects. Absent fields are `none`. The `categories` and `author`
shape-coercion inputs are not modelled: no claim references them, and they
do not interact with any modelled field. -/
structure InputItem where
  id : Option String
  guid : Option String
  title : Option String
  description : Option String
  content : Option String
  link : Option String
  published : Option String
  publishedAt : Option String
  date : Option String
  image : Option String
  audio : Option String
  video : Option String
  enclosure : Option String
  source : Option String
  isPermaLink : Option Bool
  copyright : Option String
deriving DecidableEq, Repr

/-- A normalized stored item (`RssItem` after the handler's construction of
`completeItem`). A JS `Date` value is `Option Nat` (epoch ms; `none` is an
Invalid Date). -/
structure ItemRec where
  id : String
  guid : String
  title : String
  description : String
  content : String
  link : String
  published : Option Nat
  date : Option Nat
  image : Option String
  audio : Option String
  video : Option String
  enclosure : Option String
  source : Option String
  isPermaLink : Option Bool
  copyright : Option String
deriving DecidableEq, Repr

/-- Keep an optional field only when truthy, modelling the
`...(x && \x7b x \x7d)` spread idiom. -/
def keepTruthy (o : Option String) : Option String :=
  if truthyS o then o else none

/-- The handler's `publishedAt` pre-step (`routes` lines 235-238): copy
`publishedAt` to `published` when the former is truthy and the latter falsy. -/
def mapPublishedAt (i : InputItem) : InputItem :=
  if truthyS i.publishedAt && !truthyS i.published then
    { i with published := i.publishedAt }
  else i

/-- Construction of `completeItem` in `handleAddItem`, parameterized over
the sanitizer `san` (the `sanitize` import from `utils.js`, external to the
core), the two fresh `uuidv4()` results, and the current time `now`. The
`guid` fallback chain is `guid || link || uuidv4()`; the `link` field has
been validated truthy by the caller. -/
def buildItem (san : String → String) (i : InputItem)
    (genId genGuid : String) (now : Nat) : ItemRec :=
  { id := orTruthy i.id genId
    guid := orTruthy i.guid (orTruthy i.link genGuid)
    title := san (orTruthy i.title "Untitled")
    description := san (orTruthy i.description "")
    content := san (orTruthy i.content (orTruthy i.description ""))
    link := i.link.getD ""
    published := if truthyS i.published then parseDate (i.published.getD "") else some now
    date := if truthyS i.date then parseDate (i.date.getD "") else some now
    image := keepTruthy i.image
    audio := keepTruthy i.audio
    video := keepTruthy i.video
    enclosure := keepTruthy i.enclosure
    source := keepTruthy i.source
    isPermaLink := i.isPermaLink
    copyright := keepTruthy i.copyright }

/-- Parsed JSON body of a config-update request. -/
structure FeedConfigIn where
  id : Option String
  title : Option String
  description : Option String
  siteUrl : Option String
  language : Option String
  maxItems : Option Int
  image : Option String
  copyright : Option String
deriving DecidableEq, Repr

/-- The effective feed configuration (`FeedConfig`), after
`setFeedConfig`'s defaulting. The `author` object is not modelled: it is
passed through untouched and no claim references it. -/
structure FeedConfig where
  id : String
  title : String
  description : String
  siteUrl : String
  language : String
  maxItems : Nat
  image : Option String
  copyright : Option String
deriving DecidableEq, Repr

/-- `DEFAULT_CONFIG` from `src/config.ts`. -/
def defaultConfig : FeedConfig :=
  ⟨"main", "Default RSS Feed", "A feed of curated content", "https://example.com",
   "en", 100, some "https://example.com/logo.png", some "test"⟩

/-- Normalization performed by `setFeedConfig`: force `id`, default the
text fields when falsy, and clamp `maxItems` to the default unless it is a
positive number. -/
def setFeedConfigNorm (c : FeedConfigIn) : FeedConfig :=
  { id := "main"
    title := orTruthy c.title defaultConfig.title
    description := orTruthy c.description defaultConfig.description
    siteUrl := orTruthy c.siteUrl defaultConfig.siteUrl
    language := orTruthy c.language defaultConfig.language
    maxItems :=
      match c.maxItems with
      | some v => if 0 < v then v.toNat else defaultConfig.maxItems
      | none => defaultConfig.maxItems
    image := c.image
    copyright := c.copyright }

/-- The parsed persisted feed record at key `feed:main`: the `feedConfig`
key plus whatever other keys are stored alongside it (opaque values). -/
structure FeedDoc where
  feedConfig : Option FeedConfig
  others : List (String × String)
deriving DecidableEq, Repr

/-- The raw persisted feed record: either JSON that parses to a `FeedDoc`
or unparseable data (on which `JSON.parse` throws). -/
inductive FeedStored where
  | unparseable
  | doc (d : FeedDoc)
deriving DecidableEq, Repr

/-- Full service state: cache keyspace, item list (`feed:main:items`),
persisted feed record (`feed:main`), and the in-memory current config. -/
structure AppState where
  cacheKv : Kv
  items : List ItemRec
  feedRec : Option FeedStored
  memCfg : Option FeedConfig

/-- `getFeedConfig`: the in-memory config, or the default. -/
def getFeedCfgS (st : AppState) : FeedConfig :=
  st.memCfg.getD defaultConfig

/-- Model of the storage-layer `addItem` (`src/index.ts:295-304`):
`lpush` then `ltrim 0 (maxItems - 1)`, where the trim bound is a JS number
(an `ltrim` end below zero keeps the whole list, as in both the mock and
Redis semantics for `-1`). -/
def storeAddItem (maxItems : Nat) (items : List ItemRec) (it : ItemRec) : List ItemRec :=
  let e : Int := (maxItems : Int) - 1
  if e < 0 then it :: items else List.take (e.toNat + 1) (it :: items)

/-- Model of `saveFeedConfig` (`src/index.ts:351-403`): when a record
exists, read it, parse it (an unparseable record degrades to an empty
object), replace only its `feedConfig` key, and write it back; otherwise
create a fresh record holding only `feedConfig`. -/
def saveFeedConfigS (cfg : FeedConfig) (st : AppState) : AppState :=
  match st.feedRec with
  | none => { st with feedRec := some (.doc ⟨some cfg, []⟩) }
  | some .unparseable => { st with feedRec := some (.doc ⟨some cfg, []⟩) }
  | some (.doc d) => { st with feedRec := some (.doc ⟨some cfg, d.others⟩) }

/-- Injected faults for a handler run: `addFails` makes the store `lpush`
reject, `saveFails` makes `saveFeedConfig`'s store round-trip reject, and
`invFailsAfter = some k` makes `invalidateCache` reject after its first
`k` deletions (partial invalidation failure). -/
structure Faults where
  addFails : Bool
  saveFails : Bool
  invFailsAfter : Option Nat
deriving DecidableEq, Repr

/-- The fault-free run. -/
def noFaults : Faults := ⟨false, false, none⟩

/-- Outcome of a handler: the HTTP status of the JSON response and the
state after the run. -/
structure HResult where
  status : Nat
  state : AppState

/-- Model of `handleAddItem` (the routes file, lines 221-348). `body = none`
models a malformed JSON body. Control flow: `publishedAt` mapping, the two
validation checks (400, nothing touched), `completeItem` construction, then
a try block around `addItem` and `invalidateCache` whose catch returns 500
with whatever mutations already happened. -/
def handleAddItem (san : String → String) (st : AppState) (body : Option InputItem)
    (genId genGuid : String) (now : Nat) (f : Faults) : HResult :=
  match body with
  | none => ⟨400, st⟩
  | some raw =>
    let item := mapPublishedAt raw
    if !truthyS item.content && !truthyS item.description then ⟨400, st⟩
    else if !truthyS item.link then ⟨400, st⟩
    else
      let complete := buildItem san item genId genGuid now
      if f.addFails then ⟨500, st⟩
      else
        let st1 := { st with items := storeAddItem (getFeedCfgS st).maxItems st.items complete }
        match f.invFailsAfter with
        | none => ⟨200, { st1 with cacheKv := invalidateAll st1.cacheKv }⟩
        | some k => ⟨500, { st1 with cacheKv := delKeys st1.cacheKv (invalidationKeys.take k) }⟩

/-- Model of `handleUpdateConfig` (the routes file, lines 147-185):
`setFeedConfig` (in-memory update), `saveFeedConfig` (persisted round-trip
on the config just set), then `invalidateCache`; any rejection inside the
try block yields 500 with the mutations already applied. -/
def handleUpdateConfig (st : AppState) (body : Option FeedConfigIn) (f : Faults) : HResult :=
  match body with
  | none => ⟨400, st⟩
  | some cIn =>
    let cfg := setFeedConfigNorm cIn
    let st1 := { st with memCfg := some cfg }
    if f.saveFails then ⟨500, st1⟩
    else
      let st2 := saveFeedConfigS (getFeedCfgS st1) st1
      match f.invFailsAfter with
      | none => ⟨200, { st2 with cacheKv := invalidateAll st2.cacheKv }⟩
      | some k => ⟨500, { st2 with cacheKv := delKeys st2.cacheKv (invalidationKeys.take k) }⟩

/-- A request-header map, with JS `Headers.get`'s case-insensitive name
lookup. -/
def HeadersM : Type := List (String × String)

/-- Lower-casing for header-name comparison. -/
def lowerStr (s : String) : String := String.mk (s.data.map Char.toLower)

/-- Model of `headers.get(name)`: first entry whose name matches
case-insensitively, else `none` (JS `null`). -/
def hGet (h : HeadersM) (name : String) : Option String :=
  (h.find? (fun p => lowerStr p.1 == lowerStr name)).map (fun p => p.2)

/-- Model of `isCacheValid` (`src/cache.ts:117-143`): a truthy
`If-None-Match` equal to the etag wins immediately; otherwise a truthy
`If-Modified-Since` validates when both dates parse and
`lastModified ≤ ifModifiedSince`. -/
def isCacheValid (h : HeadersM) (m : CacheMetadata) : Bool :=
  if truthyS (hGet h "If-None-Match") && ((hGet h "If-None-Match").getD "" == m.etag) then
    true
  else if truthyS (hGet h "If-Modified-Since") then
    match parseDate ((hGet h "If-Modified-Since").getD ""), parseDate m.lastModified with
    | some since, some lm => decide (lm ≤ since)
    | _, _ => false
  else false

/-- Numeric value recovered from inside a quoted etag (drop the quotes and
read the base-36 digits). -/
def unqVal (s : String) : Nat := v36 ((s.data.drop 1).dropLast)

/-- An empty service state used as a concrete evaluation fixture. -/
def stEmpty : AppState := ⟨fun _ => none, [], none, none⟩

/-- A service state whose cache holds a stale value under every key, used
as a concrete evaluation fixture. -/
def stStale : AppState := ⟨fun _ => some "stale", [], none, none⟩

/-- The empty item-add body fixture (all fields absent). -/
def inEmpty : InputItem :=
  ⟨none, none, none, none, none, none, none, none, none, none, none, none,
   none, none, none, none⟩

/-- The end-to-end example body `content: "hi"`, `link: "https://x/1"`. -/
def inHi : InputItem := { inEmpty with content := some "hi", link := some "https://x/1" }

/-- An empty config-update body fixture (all fields absent). -/
def cfgInEmpty : FeedConfigIn := ⟨none, none, none, none, none, none, none, none⟩

/-- A simple item fixture used by concrete store-eviction evaluations. -/
def mkTestItem (s : String) : ItemRec :=
  ⟨s, s, s, s, s, s, some 0, some 0, none, none, none, none, none, none, none⟩

theorem dropPfx_append (p r : List Char) : dropPfx p (p ++ r) = some r := by
  induction p with
  | nil => rfl
  | cons c cs ih => simp [dropPfx, ih]

theorem parseJStr_escJson (s : List Char) (rest : List Char) :
    parseJStr (escJson s ++ '"' :: rest) = some (s, rest) := by
  induction s with
  | nil => simp [escJson, parseJStr]
  | cons c cs ih =>
    by_cases h : c = '"' ∨ c = '\\'
    · have he : escJson (c :: cs) = '\\' :: c :: escJson cs := by simp [escJson, h]
      rcases h with h | h <;> subst h <;> simp [he, parseJStr, ih]
    · push_neg at h
      simp [escJson, h.1, h.2, parseJStr, ih]

theorem decodeMetadata_encodeMetadata (m : CacheMetadata) :
    decodeMetadata (encodeMetadata m) = some m := by
  obtain ⟨lm, et⟩ := m
  cases lm with
  | mk lmd =>
    cases et with
    | mk etd =>
      show decodeMetadata (encodeMetadata ⟨⟨lmd⟩, ⟨etd⟩⟩) = _
      simp [decodeMetadata, encodeMetadata, dropPfx_append, parseJStr_escJson]

theorem encodeMetadata_ne_empty (m : CacheMetadata) : encodeMetadata m ≠ "" := by
  intro h
  have h2 := congrArg String.data h
  simp [encodeMetadata, mdSkel1] at h2

theorem v36_concat (xs : List Char) (d : Char) :
    v36 (xs ++ [d]) = v36 xs * 36 + v36c d := by
  simp [v36, List.foldl_append]

theorem v36c_c36 : ∀ n, n < 36 → v36c (c36 n) = n := by decide

theorem v36_b36go : ∀ fuel n, n < 36 ^ fuel → v36 (b36go fuel n) = n := by
  intro fuel
  induction fuel with
  | zero =>
    intro n h
    have : n = 0 := Nat.lt_one_iff.mp (by simpa using h)
    subst this
    simp [b36go, v36]
  | succ f ih =>
    intro n h
    by_cases h36 : n < 36
    · simp [b36go, h36, v36, v36c_c36 n h36]
    · have hdiv : n / 36 < 36 ^ f := by
        rw [Nat.div_lt_iff_lt_mul (by norm_num : 0 < 36)]
        calc n < 36 ^ (f + 1) := h
        _ = 36 ^ f * 36 := by ring
      simp only [b36go, h36, if_false]
      rw [v36_concat, ih (n / 36) hdiv, v36c_c36 (n % 36) (Nat.mod_lt n (by norm_num))]
      rw [Nat.mul_comm]
      exact Nat.div_add_mod n 36

theorem unqVal_quoteB36 (t : Nat) : unqVal (quoteB36 t) = t := by
  have hfit : t < 36 ^ (t + 1) := by
    calc t < t + 1 := Nat.lt_succ_self t
    _ ≤ 36 ^ (t + 1) := by
      have := Nat.lt_pow_self (by norm_num : 1 < 36) (t + 1)
      omega
  simp [unqVal, quoteB36, List.dropLast_concat, v36_b36go (t + 1) t hfit]

theorem quoteB36_inj (t1 t2 : Nat) (h : quoteB36 t1 = quoteB36 t2) : t1 = t2 := by
  have := congrArg unqVal h
  rwa [unqVal_quoteB36, unqVal_quoteB36] at this

theorem delKeys_not_mem (ks : List String) (m : Kv) (k : String) (h : k ∉ ks) :
    delKeys m ks k = m k := by
  induction ks generalizing m with
  | nil => rfl
  | cons a as ih =>
    have hne : k ≠ a := fun he => h (he ▸ List.mem_cons_self a as)
    have has : k ∉ as := fun hm => h (List.mem_cons_of_mem a hm)
    show delKeys (kvDel a m) as k = m k
    rw [ih (kvDel a m) has]
    simp [kvDel, hne]

theorem delKeys_mem (ks : List String) (m : Kv) (k : String) (h : k ∈ ks) :
    delKeys m ks k = none := by
  induction ks generalizing m with
  | nil => cases h
  | cons a as ih =>
    show delKeys (kvDel a m) as k = none
    by_cases hm : k ∈ as
    · exact ih (kvDel a m) hm
    · have hka : k = a := by
        rcases List.mem_cons.mp h with h1 | h1
        · exact h1
        · exact absurd h1 hm
      rw [delKeys_not_mem as (kvDel a m) k hm]
      simp [kvDel, hka]

theorem invalidateAll_cacheKey (m : Kv) (f : FeedFormat) :
    invalidateAll m (cacheKeyOf f) = none := by
  apply delKeys_mem
  cases f <;> decide

theorem getCachedFeed_after_invalidate (m : Kv) (f : FeedFormat) (now : Nat) :
    getCachedFeed (pureBeh (invalidateAll m)) f now = none := by
  simp [getCachedFeed, pureBeh, invalidateAll_cacheKey]

theorem cacheKey_ne_metaKey (f : FeedFormat) : cacheKeyOf f ≠ metaKeyOf f := by
  cases f <;> decide

/-- An empty-string input never parses as a date (`new Date("")` is invalid). -/
theorem parseDate_empty : parseDate "" = none := rfl

/-- C1: `isCacheValid(requestHeaders, metadata)` returns true iff the
`If-None-Match` header is present (truthy) and equals `metadata.etag` by
exact string comparison, or the `If-Modified-Since` header parses to a
valid date, `metadata.lastModified` parses to a valid date, and the parsed
`lastModified` is at most the parsed `If-Modified-Since` (logical OR,
ETag first); and the four concrete instances for metadata
`etag = "\"abc\""`, `lastModified = "2024-01-01T00:00:00Z"` behave as the
spec states. -/
theorem c1_conditional_get_correct :
    (∀ (h : HeadersM) (m : CacheMetadata),
      isCacheValid h m = true ↔
        ((∃ v, hGet h "If-None-Match" = some v ∧ v ≠ "" ∧ v = m.etag) ∨
         (∃ v a b, hGet h "If-Modified-Since" = some v ∧ parseDate v = some a ∧
            parseDate m.lastModified = some b ∧ b ≤ a)))
    ∧ isCacheValid [("If-None-Match", "\"abc\"")]
        ⟨"2024-01-01T00:00:00Z", "\"abc\""⟩ = true
    ∧ isCacheValid [("If-Modified-Since", "2024-01-02T00:00:00Z")]
        ⟨"2024-01-01T00:00:00Z", "\"abc\""⟩ = true
    ∧ isCacheValid [("If-Modified-Since", "2023-12-31T00:00:00Z")]
        ⟨"2024-01-01T00:00:00Z", "\"abc\""⟩ = false
    ∧ isCacheValid [] ⟨"2024-01-01T00:00:00Z", "\"abc\""⟩ = false := by
  refine ⟨?_, by decide, by decide, by decide, by decide⟩
  intro h m
  simp only [isCacheValid]
  by_cases hc : (truthyS (hGet h "If-None-Match") &&
      ((hGet h "If-None-Match").getD "" == m.etag)) = true
  · rw [if_pos hc]
    simp only [true_iff]
    left
    cases hv : hGet h "If-None-Match" with
    | none => rw [hv] at hc; simp [truthyS] at hc
    | some v =>
      rw [hv] at hc
      simp [truthyS] at hc
      exact ⟨v, rfl, hc.1, hc.2⟩
  · rw [if_neg hc]
    constructor
    · intro htrue
      right
      cases hv : hGet h "If-Modified-Since" with
      | none => rw [hv] at htrue; simp [truthyS] at htrue
      | some v =>
        rw [hv] at htrue
        simp only [truthyS, Option.getD_some] at htrue
        by_cases hvE : (v == "") = true
        · simp [hvE] at htrue
        · rw [if_pos (by simp [hvE])] at htrue
          cases ha : parseDate v with
          | none => rw [ha] at htrue; cases hb : parseDate m.lastModified <;>
              rw [hb] at htrue <;> cases htrue
          | some a =>
            cases hb : parseDate m.lastModified with
            | none => rw [ha, hb] at htrue; cases htrue
            | some b =>
              rw [ha, hb] at htrue
              exact ⟨v, a, b, rfl, ha, rfl, of_decide_eq_true htrue⟩
    · intro hr
      rcases hr with ⟨v, hv, hne, hetag⟩ | ⟨v, a, b, hv, ha, hb, hle⟩
      · exfalso
        apply hc
        rw [hv]
        simp [truthyS, hne, ← hetag]
      · rw [hv]
        have hne : v ≠ "" := by
          intro he
          rw [he, parseDate_empty] at ha
          cases ha
        simp only [truthyS, Option.getD_some]
        rw [if_pos (by simp [hne]), ha, hb]
        exact decide_eq_true hle

theorem addItem_success_kv (san : String → String) (st : AppState)
    (ib : Option InputItem) (genId genGuid : String) (now : Nat)
    (hs : (handleAddItem san st ib genId genGuid now noFaults).status = 200) :
    ∃ m, (handleAddItem san st ib genId genGuid now noFaults).state.cacheKv
      = invalidateAll m := by
  cases ib with
  | none => simp [handleAddItem] at hs
  | some raw =>
    simp only [handleAddItem, noFaults] at hs ⊢
    split_ifs at hs ⊢ with h1 h2 h3
    · simp at hs
    · simp at hs
    · exact h3.elim
    · exact ⟨_, rfl⟩

theorem updateConfig_success_kv (st : AppState) (cb : Option FeedConfigIn)
    (hs : (handleUpdateConfig st cb noFaults).status = 200) :
    ∃ m, (handleUpdateConfig st cb noFaults).state.cacheKv = invalidateAll m := by
  cases cb with
  | none => simp [handleUpdateConfig] at hs
  | some cIn => exact ⟨_, rfl⟩

/-- C2: after any successful (fault-free) item-add or config-update, a
subsequent `getCachedFeed` returns absent for every one of the four
formats — no format is left with a cached rendering. -/
theorem c2_invalidation_complete (st : AppState) (san : String → String)
    (ib : Option InputItem) (cb : Option FeedConfigIn)
    (genId genGuid : String) (now now2 : Nat) :
    ((handleAddItem san st ib genId genGuid now noFaults).status = 200 →
      (getCachedFeed (pureBeh
          (handleAddItem san st ib genId genGuid now noFaults).state.cacheKv) .rss now2 = none ∧
       getCachedFeed (pureBeh
          (handleAddItem san st ib genId genGuid now noFaults).state.cacheKv) .atom now2 = none ∧
       getCachedFeed (pureBeh
          (handleAddItem san st ib genId genGuid now noFaults).state.cacheKv) .json now2 = none ∧
       getCachedFeed (pureBeh
          (handleAddItem san st ib genId genGuid now noFaults).state.cacheKv) .raw now2 = none))
    ∧ ((handleUpdateConfig st cb noFaults).status = 200 →
      (getCachedFeed (pureBeh
          (handleUpdateConfig st cb noFaults).state.cacheKv) .rss now2 = none ∧
       getCachedFeed (pureBeh
          (handleUpdateConfig st cb noFaults).state.cacheKv) .atom now2 = none ∧
       getCachedFeed (pureBeh
          (handleUpdateConfig st cb noFaults).state.cacheKv) .json now2 = none ∧
       getCachedFeed (pureBeh
          (handleUpdateConfig st cb noFaults).state.cacheKv) .raw now2 = none)) := by
  constructor
  · intro hs
    obtain ⟨m, hm⟩ := addItem_success_kv san st ib genId genGuid now hs
    rw [hm]
    exact ⟨getCachedFeed_after_invalidate m .rss now2,
           getCachedFeed_after_invalidate m .atom now2,
           getCachedFeed_after_invalidate m .json now2,
           getCachedFeed_after_invalidate m .raw now2⟩
  · intro hs
    obtain ⟨m, hm⟩ := updateConfig_success_kv st cb hs
    rw [hm]
    exact ⟨getCachedFeed_after_invalidate m .rss now2,
           getCachedFeed_after_invalidate m .atom now2,
           getCachedFeed_after_invalidate m .json now2,
           getCachedFeed_after_invalidate m .raw now2⟩

/-- C4 counterexample: caching the empty string as content and reading it
back immediately returns absent (the read treats falsy content as a miss),
not the pair just written — refuting the claim for `content = ""`. -/
theorem c4_counterexample :
    getCachedFeed (pureBeh (cacheFeed (fun _ => none) .rss "" 600 0).2) .rss 0 = none ∧
    (none : Option (String × CacheMetadata))
      ≠ some ("", (cacheFeed (fun _ => none) .rss "" 600 0).1) := by
  refine ⟨by decide, by simp⟩

/-- C4 (amended): for every format, non-empty content string and ttl, a
`getCachedFeed` immediately after a successful `cacheFeed`, with no
intervening mutation, invalidation or TTL expiry, returns exactly the
content and metadata just written. -/
theorem c4_cache_then_get (m : Kv) (f : FeedFormat) (content : String)
    (ttl t now2 : Nat) (hne : content ≠ "") :
    getCachedFeed (pureBeh (cacheFeed m f content ttl t).2) f now2
      = some (content, (cacheFeed m f content ttl t).1) := by
  simp [cacheFeed, getCachedFeed, pureBeh, kvSet, cacheKey_ne_metaKey f,
        (cacheKey_ne_metaKey f).symm, hne, encodeMetadata_ne_empty,
        decodeMetadata_encodeMetadata]

/-- C4 witness: the amended round-trip at a concrete non-empty content. -/
theorem c4_witness :
    getCachedFeed (pureBeh (cacheFeed (fun _ => none) .rss "x" 600 0).2) .rss 5
      = some ("x", (cacheFeed (fun _ => none) .rss "x" 600 0).1) :=
  c4_cache_then_get (fun _ => none) .rss "x" 600 0 5 (by decide)

/-- C5: `getCachedFeed` never fails the read: a thrown store lookup (on
either key) is treated as a cache miss, and existing (truthy) content with
missing metadata is returned with synthesized fallback metadata
(current-time `lastModified`, freshly generated etag). -/
theorem c5_read_fail_open (g : RBeh) (f : FeedFormat) (now : Nat) :
    (g (cacheKeyOf f) = .thrown → getCachedFeed g f now = none) ∧
    (∀ c, c ≠ "" → g (cacheKeyOf f) = .val (some c) → g (metaKeyOf f) = .thrown →
      getCachedFeed g f now = none) ∧
    (∀ c, c ≠ "" → g (cacheKeyOf f) = .val (some c) → g (metaKeyOf f) = .val none →
      getCachedFeed g f now = some (c, fallbackMeta now)) := by
  refine ⟨?_, ?_, ?_⟩
  · intro h
    simp [getCachedFeed, h]
  · intro c hc h1 h2
    simp [getCachedFeed, h1, h2, hc]
  · intro c hc h1 h2
    simp [getCachedFeed, h1, h2, hc]

/-- C5 witness: the fail-open behaviours at concrete store behaviours. -/
theorem c5_witness :
    getCachedFeed (fun _ => RResult.thrown) .rss 0 = none ∧
    getCachedFeed
      (fun k => if k = metaKeyOf .rss then RResult.val none else RResult.val (some "body"))
      .rss 3 = some ("body", fallbackMeta 3) := by
  constructor
  · exact (c5_read_fail_open (fun _ => RResult.thrown) .rss 0).1 rfl
  · exact (c5_read_fail_open
      (fun k => if k = metaKeyOf .rss then RResult.val none else RResult.val (some "body"))
      .rss 3).2.2 "body" (by decide) (by decide) (by decide)

/-- C6 counterexample: two `cacheFeed` writes for the same format in the
same millisecond with different contents produce the same etag — refuting
the claim that differing content always yields a distinct etag. -/
theorem c6_counterexample :
    ("a" : String) ≠ "b" ∧
    (cacheFeed (cacheFeed (fun _ => none) .rss "a" 600 0).2 .rss "b" 600 0).1.etag
      = (cacheFeed (fun _ => none) .rss "a" 600 0).1.etag := by
  exact ⟨by decide, rfl⟩

/-- C6 (amended): the etag is derived injectively from the write's
timestamp, so two `cacheFeed` writes at distinct millisecond timestamps
always produce distinct etags (regardless of content). -/
theorem c6_etag_time_inj (m m' : Kv) (f f' : FeedFormat) (c c' : String)
    (ttl ttl' t t' : Nat) (h : t ≠ t') :
    (cacheFeed m f c ttl t).1.etag ≠ (cacheFeed m' f' c' ttl' t').1.etag := by
  intro heq
  simp only [cacheFeed] at heq
  exact h (quoteB36_inj t t' heq)

/-- C6 witness: distinct timestamps 0 and 1 give distinct etags. -/
theorem c6_witness :
    (cacheFeed (fun _ => none) .rss "a" 600 0).1.etag
      ≠ (cacheFeed (fun _ => none) .rss "a" 600 1).1.etag :=
  c6_etag_time_inj (fun _ => none) (fun _ => none) .rss .rss "a" "a" 600 600 0 1 (by decide)

theorem mapPA_content (i : InputItem) : (mapPublishedAt i).content = i.content := by
  unfold mapPublishedAt; split <;> rfl

theorem mapPA_description (i : InputItem) :
    (mapPublishedAt i).description = i.description := by
  unfold mapPublishedAt; split <;> rfl

theorem mapPA_link (i : InputItem) : (mapPublishedAt i).link = i.link := by
  unfold mapPublishedAt; split <;> rfl

/-- C7: an item-add whose body lacks both `content` and `description`
(falsy), or lacks `link`, returns 400 and leaves the whole service state
untouched — no store write, no cache write or invalidation. -/
theorem c7_validation_rejects (san : String → String) (st : AppState)
    (i : InputItem) (genId genGuid : String) (now : Nat) (f : Faults)
    (h : (truthyS i.content = false ∧ truthyS i.description = false)
          ∨ truthyS i.link = false) :
    handleAddItem san st (some i) genId genGuid now f = ⟨400, st⟩ := by
  rcases h with ⟨h1, h2⟩ | h3
  · simp [handleAddItem, mapPA_content, mapPA_description, h1, h2]
  · by_cases hfirst :
      (!truthyS (mapPublishedAt i).content && !truthyS (mapPublishedAt i).description) = true
    · simp [handleAddItem, hfirst]
    · simp [handleAddItem, hfirst, mapPA_link, h3]

/-- C7 witness: a concrete body with a link but neither content nor
description is rejected with 400 and the state is returned unchanged. -/
theorem c7_witness :
    handleAddItem id stStale (some { inEmpty with link := some "https://x/1" })
      "i1" "g1" 0 noFaults = ⟨400, stStale⟩ :=
  c7_validation_rejects id stStale { inEmpty with link := some "https://x/1" }
    "i1" "g1" 0 noFaults (Or.inl (by constructor <;> decide))

theorem take_app_take {α : Type} (k : Nat) (a b : List α) :
    List.take k (a ++ List.take k b) = List.take k (a ++ b) := by
  rw [List.take_append_eq_append_take, List.take_append_eq_append_take,
      List.take_take, Nat.min_eq_left (Nat.sub_le k a.length)]

theorem foldl_take5 {α : Type} :
    ∀ (xs : List α) (x : α) (s : List α),
      List.foldl (fun acc y => List.take 5 (y :: acc)) s (x :: xs)
        = List.take 5 (xs.reverse ++ x :: s) := by
  intro xs
  induction xs with
  | nil => intro x s; simp
  | cons y ys ih =>
    intro x s
    show List.foldl (fun acc y => List.take 5 (y :: acc)) (List.take 5 (x :: s)) (y :: ys)
      = _
    rw [ih y (List.take 5 (x :: s))]
    have hshape : ys.reverse ++ y :: List.take 5 (x :: s)
        = (ys.reverse ++ [y]) ++ List.take 5 (x :: s) := by simp
    rw [hshape, take_app_take]
    simp

theorem storeAddItem_five (acc : List ItemRec) (it : ItemRec) :
    storeAddItem 5 acc it = List.take 5 (it :: acc) := rfl

/-- C8: after any sequence of `N ≥ 5` store-level item adds with
`maxItems = 5`, the Item Store contains exactly the 5 most recently added
items, newest first. -/
theorem c8_eviction_bound (xs : List ItemRec) (s0 : List ItemRec)
    (h : 5 ≤ xs.length) :
    List.foldl (fun acc it => storeAddItem 5 acc it) s0 xs
      = List.take 5 xs.reverse := by
  have hstep : (fun acc it => storeAddItem 5 acc it)
      = (fun (acc : List ItemRec) it => List.take 5 (it :: acc)) := by
    funext acc it; exact storeAddItem_five acc it
  rw [hstep]
  cases xs with
  | nil => simp at h
  | cons x xs' =>
    rw [foldl_take5 xs' x s0]
    have hlen : 5 ≤ (xs'.reverse ++ [x]).length := by
      simpa using h
    have hshape : xs'.reverse ++ x :: s0 = (xs'.reverse ++ [x]) ++ s0 := by simp
    rw [hshape, List.take_append_of_le_length hlen]
    simp

/-- C8 witness: six concrete adds into an empty store leave exactly the
last five items, newest first. -/
theorem c8_witness :
    List.foldl (fun acc it => storeAddItem 5 acc it) []
        [mkTestItem "1", mkTestItem "2", mkTestItem "3", mkTestItem "4",
         mkTestItem "5", mkTestItem "6"]
      = [mkTestItem "6", mkTestItem "5", mkTestItem "4", mkTestItem "3",
         mkTestItem "2"] :=
  (c8_eviction_bound
      [mkTestItem "1", mkTestItem "2", mkTestItem "3", mkTestItem "4",
       mkTestItem "5", mkTestItem "6"] [] (by decide)).trans (by decide)

/-- C9: when a persisted feed record exists with parseable data,
`saveFeedConfig` merges into it: every key stored alongside `feedConfig`
is preserved unchanged and only the `feedConfig` key is replaced. -/
theorem c9_save_config_merges (st : AppState) (cfg : FeedConfig) (d : FeedDoc)
    (h : st.feedRec = some (.doc d)) :
    (saveFeedConfigS cfg st).feedRec = some (.doc ⟨some cfg, d.others⟩) := by
  unfold saveFeedConfigS
  rw [h]

/-- C9 witness: merging over a concrete stored record with an extra key
preserves that key and replaces only `feedConfig`. -/
theorem c9_witness :
    (saveFeedConfigS defaultConfig
        ⟨fun _ => none, [], some (.doc ⟨none, [("k1", "v1")]⟩), none⟩).feedRec
      = some (.doc ⟨some defaultConfig, [("k1", "v1")]⟩) :=
  c9_save_config_merges
    ⟨fun _ => none, [], some (.doc ⟨none, [("k1", "v1")]⟩), none⟩
    defaultConfig ⟨none, [("k1", "v1")]⟩ rfl

/-- C10: when the body has a truthy `publishedAt` and a falsy `published`,
the normalized item is exactly the one obtained by supplying that value as
`published`; when `published` is truthy, `publishedAt` is ignored entirely. -/
theorem c10_publishedAt_alias :
    (∀ (san : String → String) (i : InputItem) (p genId genGuid : String) (now : Nat),
      i.publishedAt = some p → truthyS i.published = false →
      buildItem san (mapPublishedAt i) genId genGuid now
        = buildItem san (mapPublishedAt { i with published := some p, publishedAt := none })
            genId genGuid now)
    ∧ (∀ (san : String → String) (i : InputItem) (pa : Option String)
        (genId genGuid : String) (now : Nat),
      truthyS i.published = true →
      buildItem san (mapPublishedAt { i with publishedAt := pa }) genId genGuid now
        = buildItem san (mapPublishedAt i) genId genGuid now) := by
  constructor
  · intro san i p genId genGuid now hpa hpub
    by_cases hp : p = ""
    · subst hp
      have h0 : truthyS (some "") = false := rfl
      have hn : truthyS none = false := rfl
      simp [mapPublishedAt, hpa, hpub, h0, hn, buildItem]
    · have hps : truthyS (some p) = true := by simp [truthyS, hp]
      simp [mapPublishedAt, hpa, hpub, hps, buildItem]
  · intro san i pa genId genGuid now hpub
    simp [mapPublishedAt, hpub, buildItem]

/-- C10 witness: the alias behaviour at concrete bodies (a dated
`publishedAt` with no `published`, and a truthy `published` with a
conflicting `publishedAt`). -/
theorem c10_witness :
    (buildItem id (mapPublishedAt { inHi with publishedAt := some "2024-01-02T00:00:00Z" })
        "i1" "g1" 7
      = buildItem id (mapPublishedAt
          { { inHi with publishedAt := some "2024-01-02T00:00:00Z" } with
              published := some "2024-01-02T00:00:00Z", publishedAt := none })
          "i1" "g1" 7)
    ∧ (buildItem id (mapPublishedAt
          { { inHi with published := some "2024-01-02T00:00:00Z" } with
              publishedAt := some "1999-12-31" }) "i1" "g1" 7
      = buildItem id (mapPublishedAt { inHi with published := some "2024-01-02T00:00:00Z" })
          "i1" "g1" 7) := by
  constructor
  · exact c10_publishedAt_alias.1 id { inHi with publishedAt := some "2024-01-02T00:00:00Z" }
      "2024-01-02T00:00:00Z" "i1" "g1" 7 rfl (by decide)
  · exact c10_publishedAt_alias.2 id { inHi with published := some "2024-01-02T00:00:00Z" }
      (some "1999-12-31") "i1" "g1" 7 (by decide)

/-- C2 witness: a concrete successful item-add and config-update over a
fully stale cache leave every format's cached feed absent. -/
theorem c2_witness :
    (handleAddItem id stStale (some inHi) "id1" "gid1" 0 noFaults).status = 200 ∧
    (handleUpdateConfig stStale (some cfgInEmpty) noFaults).status = 200 ∧
    getCachedFeed (pureBeh
        (handleAddItem id stStale (some inHi) "id1" "gid1" 0 noFaults).state.cacheKv)
      .rss 9 = none ∧
    getCachedFeed (pureBeh
        (handleUpdateConfig stStale (some cfgInEmpty) noFaults).state.cacheKv)
      .raw 9 = none := by
  refine ⟨by decide, by decide, ?_, ?_⟩
  · exact ((c2_invalidation_complete stStale id (some inHi) (some cfgInEmpty)
      "id1" "gid1" 0 9).1 (by decide)).1
  · exact ((c2_invalidation_complete stStale id (some inHi) (some cfgInEmpty)
      "id1" "gid1" 0 9).2 (by decide)).2.2.2

theorem saveFeedConfigS_memCfg (cfg : FeedConfig) (s : AppState) :
    (saveFeedConfigS cfg s).memCfg = s.memCfg := by
  unfold saveFeedConfigS
  rcases s with ⟨kv, its, fr, mc⟩
  cases fr with
  | none => rfl
  | some fs => cases fs <;> rfl

/-- C3 counterexample: a valid item-add whose store write succeeds but
whose cache invalidation fails responds 500 — not a success response —
refuting the claim that the handler still reports success. -/
theorem c3_counterexample :
    (handleAddItem id stEmpty (some inHi) "id1" "gid1" 0 ⟨false, false, some 0⟩).status = 500 ∧
    ¬((handleAddItem id stEmpty (some inHi) "id1" "gid1" 0
        ⟨false, false, some 0⟩).status = 200) := by
  constructor <;> decide

/-- C3 (amended): when the mutation succeeds and the subsequent
`invalidateCache` fails, both handlers report failure (HTTP 500) to the
caller; the mutation itself is not rolled back — the added item stays in
the store, and the updated configuration stays in memory and in the
persisted record. -/
theorem c3_invalidation_failure_reports_500 :
    (∀ (san : String → String) (st : AppState) (i : InputItem)
       (genId genGuid : String) (now k : Nat),
      (truthyS i.content = true ∨ truthyS i.description = true) →
      truthyS i.link = true →
      (handleAddItem san st (some i) genId genGuid now ⟨false, false, some k⟩).status = 500 ∧
      (handleAddItem san st (some i) genId genGuid now ⟨false, false, some k⟩).state.items
        = storeAddItem (getFeedCfgS st).maxItems st.items
            (buildItem san (mapPublishedAt i) genId genGuid now))
    ∧ (∀ (st : AppState) (cIn : FeedConfigIn) (k : Nat),
      (handleUpdateConfig st (some cIn) ⟨false, false, some k⟩).status = 500 ∧
      (handleUpdateConfig st (some cIn) ⟨false, false, some k⟩).state.memCfg
        = some (setFeedConfigNorm cIn) ∧
      (handleUpdateConfig st (some cIn) ⟨false, false, some k⟩).state.feedRec
        = (saveFeedConfigS (setFeedConfigNorm cIn)
            { st with memCfg := some (setFeedConfigNorm cIn) }).feedRec) := by
  constructor
  · intro san st i genId genGuid now k hor hlink
    have h1 : (!truthyS (mapPublishedAt i).content
        && !truthyS (mapPublishedAt i).description) = false := by
      rcases hor with h | h <;> simp [mapPA_content, mapPA_description, h]
    have h2 : (!truthyS (mapPublishedAt i).link) = false := by
      simp [mapPA_link, hlink]
    constructor <;> simp [handleAddItem, h1, h2]
  · intro st cIn k
    refine ⟨by simp [handleUpdateConfig], ?_, ?_⟩
    · simp [handleUpdateConfig, getFeedCfgS, saveFeedConfigS_memCfg]
    · simp [handleUpdateConfig, getFeedCfgS]

/-- C3 witness: the amended behaviour at a concrete valid item-add and a
concrete config-update whose invalidation fails after two deletions. -/
theorem c3_witness :
    (handleAddItem id stStale (some inHi) "i1" "g1" 0 ⟨false, false, some 2⟩).status = 500 ∧
    (handleAddItem id stStale (some inHi) "i1" "g1" 0 ⟨false, false, some 2⟩).state.items
      = storeAddItem (getFeedCfgS stStale).maxItems stStale.items
          (buildItem id (mapPublishedAt inHi) "i1" "g1" 0) ∧
    (handleUpdateConfig stStale (some cfgInEmpty) ⟨false, false, some 2⟩).status = 500 := by
  refine ⟨?_, ?_, ?_⟩
  · exact (c3_invalidation_failure_reports_500.1 id stStale inHi "i1" "g1" 0 2
      (Or.inl (by decide)) (by decide)).1
  · exact (c3_invalidation_failure_reports_500.1 id stStale inHi "i1" "g1" 0 2
      (Or.inl (by decide)) (by decide)).2
  · exact (c3_invalidation_failure_reports_500.2 stStale cfgInEmpty 2).1
